import Mathlib

/-!
Shallow embedding of the learning-planner agent repository.

Source files embedded:
  calendar_tool.py   (CalendarEventTool.get_today_events)
  twilio_tool.py     (TwilioNotifierTool.send_sms_notification)
  githubmcptool.py   (GitHubMcpTool.search_repositories / analyze_repository /
                      get_top_recommendations)
  orchestrator.py    (GitHubMcpClient.get_top_github_recommendations, run_agent)

External effects (HTTP requests, SDK calls, the language model) are passed in
as explicit oracle arguments: an `Except` value stands for "the underlying
call returned normally / raised an exception", and the model's response is a
plain value handed to `run_agent`.  Everything the Python code itself computes
is translated directly.
-/

namespace CapstoneAgent

open List

/-! ## calendar_tool.py -/

/-- A raw Google-calendar event as consumed by `get_today_events`:
`event['summary']`, `event['start'].get('dateTime')`, `event['start'].get('date')`,
`event.get('htmlLink')`. -/
structure RawEvent where
  summary : String
  start_dateTime : Option String
  start_date : Option String
  htmlLink : Option String
deriving DecidableEq

/-- The processed event dict built inside the loop of `get_today_events`
(`{'title': ..., 'start_time_utc': ..., 'link': ...}`). -/
structure ProcessedEvent where
  title : String
  start_time_utc : Option String
  link : String
deriving DecidableEq

/-- One iteration of the processing loop in `get_today_events`
(calendar_tool.py lines 69-78). -/
def process_event (e : RawEvent) : ProcessedEvent :=
  { title := e.summary
    start_time_utc := e.start_dateTime.orElse (fun _ => e.start_date)
    link := e.htmlLink.getD "N/A" }

/-- CalendarEventTool.get_today_events (calendar_tool.py lines 42-82).
The upstream `events().list(...).execute()` call together with the item
extraction is the oracle `upstream`; `Except.error` is a raised exception,
caught by the `except` clause which returns `[]`.  On the success path the
Python function builds `processed_events` and then falls off the end of the
function body without a `return` statement, so it returns `None`
(`Option.none` here). -/
def get_today_events (upstream : Except String (List RawEvent)) :
    Option (List ProcessedEvent) :=
  match upstream with
  | .error _ => some []
  | .ok events =>
      let _processed_events := events.map process_event
      none

/-! ## twilio_tool.py -/

/-- TwilioNotifierTool.send_sms_notification (twilio_tool.py lines 30-47).
The Twilio `client.messages.create` call is the oracle: `.ok sid` is a
message accepted by the client, `.error msg` is any raised exception. -/
def send_sms_notification (create : Except String String) : Bool :=
  match create with
  | .ok _sid => true
  | .error _ => false

/-! ## githubmcptool.py -/

/-- A GitHub search-result item, restricted to the keys read by
`analyze_repository`.  `description` is `Option` because the GitHub API
returns `null` descriptions (`repo.get('description','') or ''`); a Python
string is a list of characters. -/
structure Repo where
  stargazers_count : Nat
  forks_count : Nat
  description : Option (List Char)
  has_wiki : Bool
  full_name : Option String
  html_url : Option String
  language : Option String
  updated_at : Option String
deriving DecidableEq

/-- The dict returned by `analyze_repository`. -/
structure AnalyzedRepo where
  name : Option String
  url : Option String
  description : Option (List Char)
  stars : Nat
  forks : Nat
  language : Option String
  score : ℚ
  updated_at : Option String
deriving DecidableEq

/-- The keyword list of `analyze_repository` (githubmcptool.py line 100). -/
def hands_on_keywords : List (List Char) :=
  ["tutorial".data, "example".data, "hands-on".data, "practical".data,
   "guide".data, "workshop".data, "project".data]

/-- GitHubMcpTool.analyze_repository (githubmcptool.py lines 88-121).
Python's `keyword in description` is substring containment (`<:+:`);
`.lower()` / `.upper()` map `Char.toLower` / `Char.toUpper` over the
characters; `stars / 100` is exact (non-integer) division, modelled in ℚ. -/
def analyze_repository (repo : Repo) : AnalyzedRepo :=
  let score : ℚ := 0
  let score := score + min ((repo.stargazers_count : ℚ) / 100) 50
  let score := score + min ((repo.forks_count : ℚ) / 100) 20
  let description := (repo.description.getD []).map Char.toLower
  let score := hands_on_keywords.foldl
    (fun s keyword => if keyword <:+: description then s + 5 else s) score
  let score := if repo.has_wiki then score + 5 else score
  let score := if "README".data <:+: description.map Char.toUpper then score + 5 else score
  { name := repo.full_name
    url := repo.html_url
    description := repo.description
    stars := repo.stargazers_count
    forks := repo.forks_count
    language := repo.language
    score := score
    updated_at := repo.updated_at }

/-- The parsed HTTP response seen by `search_repositories`: the status code
and the `items` field of the JSON body. -/
structure SearchResponse where
  status_code : Nat
  items : List Repo

/-- GitHubMcpTool.search_repositories (githubmcptool.py lines 48-85).
The `requests.get` call is the oracle; `.error` covers any exception raised
inside the `try` block, handled by returning `[]`; a non-200 status also
returns `[]`. -/
def search_repositories (resp : Except String SearchResponse) : List Repo :=
  match resp with
  | .ok r => if r.status_code == 200 then r.items else []
  | .error _ => []

/-- The comparator realising `sorted(..., key=lambda x: x['score'],
reverse=True)`: descending by score, non-strict so that the stable sort
keeps encounter order on ties. -/
def score_desc (a b : AnalyzedRepo) : Bool := decide (b.score ≤ a.score)

/-- GitHubMcpTool.get_top_recommendations (githubmcptool.py lines 123-134),
parameterised by the list `search_repositories` returned.  Python's
`sorted` is a stable sort, so it is `mergeSort` with `score_desc`. -/
def get_top_recommendations (searchResult : List Repo) (max_results : Nat) :
    List AnalyzedRepo :=
  let analyzed_repos := searchResult.map analyze_repository
  let sorted_repos := analyzed_repos.mergeSort score_desc
  sorted_repos.take max_results

/-- Modelled from the claim text of C4 (spec section 4.4, scoring function):
score = min(stars/100, 50) + min(forks/100, 20) + 5 per hands-on keyword
found as a substring of the lowercased description + 5 if the wiki flag is
set + 5 if the description contains the substring README
case-insensitively.  Stated from the words of the spec, to be compared with
`analyze_repository` translated from the source. -/
def claimed_score (repo : Repo) : ℚ :=
  let descLower := (repo.description.getD []).map Char.toLower
  min ((repo.stargazers_count : ℚ) / 100) 50
    + min ((repo.forks_count : ℚ) / 100) 20
    + 5 * ((hands_on_keywords.filter (fun kw => decide (kw <:+: descLower))).length : ℚ)
    + (if repo.has_wiki then 5 else 0)
    + (if "readme".data <:+: descLower then 5 else 0)

/-! ## orchestrator.py -/

/-- GitHubMcpClient.get_top_github_recommendations (orchestrator.py lines
30-49).  The `requests.get` + `raise_for_status` + `.json()` pipeline is the
oracle: `.ok body` is the parsed JSON body of a 2xx response, `.error` is any
`requests.exceptions.RequestException` (network failure, non-2xx status,
decode error).  The `except` clause only logs, so the function falls off the
end and returns `None`. -/
def get_top_github_recommendations (resp : Except String (List AnalyzedRepo)) :
    Option (List AnalyzedRepo) :=
  match resp with
  | .ok body => some body
  | .error _ => none

/-- A Python value, as far as the orchestrator inspects one. -/
inductive PyVal where
  | none : PyVal
  | bool : Bool → PyVal
  | str : String → PyVal
  | list : List PyVal → PyVal
  | dict : List (String × PyVal) → PyVal

/-- A `function_call` entry of a model response: `call.name` and
`dict(call.args)`. -/
structure ToolCall where
  name : String
  args : List (String × PyVal)

/-- A `types.Part.from_function_response(name=..., response=...)` part. -/
structure ToolResult where
  name : String
  response : PyVal

/-- Outcome of executing the body of the `try` block for one tool call
(invocation, logging/serialisation, part construction): either the value
returned by `tool_func(**args)` or the raised exception's message. -/
inductive Outcome where
  | ok : PyVal → Outcome
  | exn : String → Outcome

/-- The keys of TOOL_EXECUTOR_MAP (orchestrator.py lines 68-72). -/
def TOOL_EXECUTOR_MAP_keys : List String :=
  ["get_today_events", "get_top_github_recommendations", "send_sms_notification"]

/-- `TOOL_EXECUTOR_MAP.get(tool_name)` is not `None`. -/
def registryHas (name : String) : Bool :=
  TOOL_EXECUTOR_MAP_keys.contains name

/-- The error payload `{"error": str(e), "status": "failed"}`
(orchestrator.py line 127). -/
def errorPayload (msg : String) : PyVal :=
  .dict [("error", .str msg), ("status", .str "failed")]

/-- The success return string of `run_agent` (orchestrator.py line 121). -/
def successString (phone : String) : String :=
  "Plan successfully sent to " ++ phone ++ "."

/-- The exhaustion return string of `run_agent` (orchestrator.py line 138). -/
def failString : String :=
  "Agent planning failed: Loop iteration limit exceeded."

/-- A model response: `response.function_calls` (empty list for
none/empty) and `response.text` (`None` allowed). -/
structure ModelResponse where
  function_calls : List ToolCall
  text : Option String

/-- The inner `for call in response.function_calls` loop of `run_agent`
(orchestrator.py lines 105-130).  `exec i` is the outcome of the `try` block
for the call at position `i`.  Returns the accumulated `tool_responses`
together with `some s` when the loop body executed `return s` (the terminal
`send_sms_notification` branch), else `none`. -/
def dispatchTurn (ex : Nat → Outcome) (phone : String) :
    List ToolCall → List ToolResult × Option String
  | [] => ([], none)
  | call :: rest =>
    if registryHas call.name then
      match ex 0 with
      | .ok v =>
        if call.name == "send_sms_notification" then
          ([⟨call.name, v⟩], some (successString phone))
        else
          let r := dispatchTurn (fun i => ex (i + 1)) phone rest
          (⟨call.name, v⟩ :: r.1, r.2)
      | .exn msg =>
        let r := dispatchTurn (fun i => ex (i + 1)) phone rest
        (⟨call.name, errorPayload msg⟩ :: r.1, r.2)
    else
      dispatchTurn (fun i => ex (i + 1)) phone rest

/-- The `for _ in range(15)` loop of `run_agent` (orchestrator.py lines
101-138), with `fuel` iterations remaining and `it` iterations already done.
`response` is never reassigned inside the Python loop, so the same
`r : ModelResponse` is examined on every iteration; the oracle
`ex it i` gives the outcome of call `i` of iteration `it` (tool execution is
an external effect, so it may differ between iterations).  The loop body
never sends anything back to the model: no model request occurs after the
single initial `session.send_message(initial_prompt)`. -/
def runLoopAux (r : ModelResponse) (ex : Nat → Nat → Outcome) (phone : String) :
    Nat → Nat → Option String
  | _, 0 => some failString
  | it, fuel + 1 =>
    if r.function_calls.isEmpty then r.text
    else
      match (dispatchTurn (ex it) phone r.function_calls).2 with
      | some s => some s
      | none => runLoopAux r ex phone (it + 1) fuel

/-- run_agent (orchestrator.py lines 75-138): the initial
`session.send_message(initial_prompt)` produced `r`; then the bounded tool
loop runs with budget 15.  The returned value is the Python return value
(`None` possible via the text branch). -/
def run_agent (r : ModelResponse) (ex : Nat → Nat → Outcome) (phone : String) :
    Option String :=
  runLoopAux r ex phone 0 15

/-! ## Helper lemmas -/

/-- The only early return inside the dispatch loop is the terminal
`send_sms_notification` branch, and it returns the success string. -/
theorem dispatchTurn_snd_eq_some (phone s : String) :
    ∀ (calls : List ToolCall) (ex : Nat → Outcome),
      (dispatchTurn ex phone calls).2 = some s → s = successString phone := by
  intro calls
  induction calls with
  | nil => intro ex h; simp [dispatchTurn] at h
  | cons c rest ih =>
    intro ex h
    simp only [dispatchTurn] at h
    split at h
    · split at h
      · split at h
        · exact (Option.some.inj h).symm
        · exact ih _ h
      · exact ih _ h
    · exact ih _ h

/-- If every iteration's dispatch pass ends without an early return, the
loop runs its remaining budget down to zero and yields the failure string. -/
theorem runLoopAux_of_no_return (r : ModelResponse) (ex : Nat → Nat → Outcome)
    (phone : String) :
    ∀ (fuel it : Nat), r.function_calls.isEmpty = false →
      (∀ j, it ≤ j → j < it + fuel →
        (dispatchTurn (ex j) phone r.function_calls).2 = none) →
      runLoopAux r ex phone it fuel = some failString := by
  intro fuel
  induction fuel with
  | zero => intro it _ _; rfl
  | succ n ih =>
    intro it h1 h2
    have hd := h2 it (Nat.le_refl it) (by omega)
    rw [runLoopAux]
    simp only [h1, Bool.false_eq_true, if_false, hd]
    exact ih (it + 1) h1 (fun j hj1 hj2 => h2 j (by omega) (by omega))

/-- The exhaustion string differs from every success string: one starts with
the character A, the other with P. -/
theorem failString_ne_successString (p : String) : failString ≠ successString p := by
  intro h
  have hd : failString.data = (successString p).data := by rw [h]
  simp only [successString, String.data_append] at hd
  have h1 : some (Char.ofNat 65) = some (Char.ofNat 80) := congrArg List.head? hd
  exact absurd (Option.some.inj h1) (by decide)

/-! ## Claims about the orchestrator loop -/

/-- C2: get_today_events was specified to return the processed event
sequence on success and the empty sequence both when no events exist and
when the upstream call fails.  The code only returns `[]` on the exception
path; on every success path (zero events or not) it falls off the end of the
function and returns `None`.  This theorem evaluates the code at the failing
inputs. -/
theorem c2_get_today_events_success_returns_none :
    get_today_events (.ok []) = none ∧
    get_today_events
      (.ok [⟨"Intro to Kubernetes", some "2026-10-12T09:00:00+00:00", none,
            some "https://calendar.example/evt"⟩]) = none ∧
    get_today_events (.error "fetch failed") = some [] :=
  ⟨rfl, rfl, rfl⟩

/-- C3: if, within a turn, the terminal tool send_sms_notification is
invoked and its try block succeeds, the dispatch pass ends with an early
return whose value is the success status string, and the loop returns it at
once: the remaining iteration budget `fuel` is never consumed, and since the
loop issues no model requests at all, no further model turn is issued. -/
theorem c3_terminal_sms_stops_run (r : ModelResponse) (ex : Nat → Nat → Outcome)
    (phone : String) (it fuel : Nat) (s : String)
    (h : (dispatchTurn (ex it) phone r.function_calls).2 = some s) :
    s = successString phone ∧ runLoopAux r ex phone it (fuel + 1) = some s := by
  have hs := dispatchTurn_snd_eq_some phone s r.function_calls (ex it) h
  refine ⟨hs, ?_⟩
  have hne : r.function_calls.isEmpty = false := by
    cases hc : r.function_calls with
    | nil => rw [hc] at h; simp [dispatchTurn] at h
    | cons a l => rfl
  rw [runLoopAux]
  simp only [hne, Bool.false_eq_true, if_false, h]

/-- C3 witness: a turn whose single call is a successful
send_sms_notification makes the run return the success string with the whole
budget remaining. -/
theorem c3_witness :
    successString "p" = successString "p" ∧
    runLoopAux ⟨[⟨"send_sms_notification", []⟩], none⟩
      (fun _ _ => Outcome.ok PyVal.none) "p" 0 15 = some (successString "p") :=
  c3_terminal_sms_stops_run ⟨[⟨"send_sms_notification", []⟩], none⟩
    (fun _ _ => Outcome.ok PyVal.none) "p" 0 14 (successString "p") rfl

/-- C6: if the model response holds tool calls (so the text branch is never
taken) and no iteration's dispatch pass ends in a terminal success, the loop
completes its 15 iterations and run_agent returns the failure string, which
differs from every success status string; the embedding is a total function,
so no fault escapes. -/
theorem c6_exhaustion_returns_distinct_failure (r : ModelResponse)
    (ex : Nat → Nat → Outcome) (phone : String)
    (h1 : r.function_calls ≠ [])
    (h2 : ∀ it, it < 15 → (dispatchTurn (ex it) phone r.function_calls).2 = none) :
    run_agent r ex phone = some failString ∧
    ∀ p, failString ≠ successString p := by
  constructor
  · have hne : r.function_calls.isEmpty = false := by
      cases hc : r.function_calls with
      | nil => exact absurd hc h1
      | cons a l => rfl
    exact runLoopAux_of_no_return r ex phone 15 0 hne
      (fun j _ hj2 => h2 j (by omega))
  · exact failString_ne_successString

/-- C6 witness: a response with one calendar call whose execution always
raises exhausts the budget and returns the failure string. -/
theorem c6_witness :
    run_agent ⟨[⟨"get_today_events", []⟩], none⟩
      (fun _ _ => Outcome.exn "boom") "p" = some failString ∧
    ∀ p, failString ≠ successString p :=
  c6_exhaustion_returns_distinct_failure ⟨[⟨"get_today_events", []⟩], none⟩
    (fun _ _ => Outcome.exn "boom") "p" (by simp) (fun it _ => rfl)

/-- C7: a resolvable call whose try block raises is recorded as exactly one
ToolResult carrying the payload with error message and status failed, in its
call position, and dispatch continues with the remaining calls; the early
return decision is unaffected and the exception goes no further (the
embedding stays total). -/
theorem c7_tool_exception_recorded_and_continues (ex : Nat → Outcome)
    (phone msg : String) (c : ToolCall) (rest : List ToolCall)
    (h1 : registryHas c.name = true) (h2 : ex 0 = .exn msg) :
    dispatchTurn ex phone (c :: rest) =
      (⟨c.name, errorPayload msg⟩ ::
          (dispatchTurn (fun i => ex (i + 1)) phone rest).1,
        (dispatchTurn (fun i => ex (i + 1)) phone rest).2) := by
  simp [dispatchTurn, h1, h2]

/-- C7 witness: a failing calendar call yields exactly its error result and
no early return. -/
theorem c7_witness :
    registryHas "get_today_events" = true ∧
    dispatchTurn (fun _ => Outcome.exn "boom") "p" [⟨"get_today_events", []⟩] =
      (⟨"get_today_events", errorPayload "boom"⟩ ::
          (dispatchTurn (fun _i => Outcome.exn "boom") "p" []).1,
        (dispatchTurn (fun _i => Outcome.exn "boom") "p" []).2) :=
  ⟨rfl, c7_tool_exception_recorded_and_continues (fun _ => Outcome.exn "boom")
    "p" "boom" ⟨"get_today_events", []⟩ [] rfl rfl⟩

/-- C8 counterexample: the claim says both implementations turn a search
error into an empty result sequence.  The orchestrator-side client
get_top_github_recommendations returns `None` on error (its except clause
only logs, and the function body has no further return), which is not the
empty sequence. -/
theorem c8_counterexample_client_error_is_none :
    get_top_github_recommendations (.error "connection refused") = none ∧
    (none : Option (List AnalyzedRepo)) ≠ some [] :=
  ⟨rfl, by simp⟩

/-- C8 amended: any search error (exception or non-200 status) makes the MCP
server search_repositories return the empty sequence, while the
orchestrator-side client get_top_github_recommendations returns `None` (not
a sequence) on any request error; neither raises. -/
theorem c8_amended_search_error_policy (e e2 : String) (st : Nat)
    (items : List Repo) (h : st ≠ 200) :
    search_repositories (.error e) = [] ∧
    search_repositories (.ok ⟨st, items⟩) = [] ∧
    get_top_github_recommendations (.error e2) = none := by
  refine ⟨rfl, ?_, rfl⟩
  simp [search_repositories, h]

/-- C8 witness: a 403 status and a network error both yield the empty
sequence from the server tool, and `None` from the client. -/
theorem c8_witness :
    search_repositories (.error "timeout") = [] ∧
    search_repositories (.ok ⟨403, []⟩) = [] ∧
    get_top_github_recommendations (.error "refused") = none :=
  c8_amended_search_error_policy "timeout" "refused" 403 [] (by decide)

/-- C9 counterexample: in a turn whose calls are a successful
send_sms_notification followed by a calendar call, both resolvable, the
early terminal return stops dispatch, so only one ToolResult is produced
while two calls are resolvable -- the claimed per-turn equality fails. -/
theorem c9_counterexample_terminal_truncates :
    (dispatchTurn (fun _ => Outcome.ok PyVal.none) "p"
        [⟨"send_sms_notification", []⟩, ⟨"get_today_events", []⟩]).1.length ≠
      ([(⟨"send_sms_notification", []⟩ : ToolCall),
          ⟨"get_today_events", []⟩].filter (fun c => registryHas c.name)).length := by
  decide

/-- C9 amended: an unresolvable tool name is skipped and produces no
ToolResult; and in every turn in which no send_sms_notification invocation
succeeds (no early return), the number of ToolResults produced equals the
number of resolvable tool calls of the turn. -/
theorem c9_amended_skip_and_result_count :
    (∀ (ex : Nat → Outcome) (phone : String) (c : ToolCall) (rest : List ToolCall),
        registryHas c.name = false →
        dispatchTurn ex phone (c :: rest) =
          dispatchTurn (fun i => ex (i + 1)) phone rest) ∧
    (∀ (ex : Nat → Outcome) (phone : String) (calls : List ToolCall),
        (dispatchTurn ex phone calls).2 = none →
        (dispatchTurn ex phone calls).1.length =
          (calls.filter (fun c => registryHas c.name)).length) := by
  constructor
  · intro ex phone c rest h
    simp [dispatchTurn, h]
  · intro ex phone calls
    induction calls generalizing ex with
    | nil => intro _; simp [dispatchTurn]
    | cons c rest ih =>
      intro h
      by_cases h1 : registryHas c.name
      · cases h2 : ex 0 with
        | ok v =>
          cases h3 : (c.name == "send_sms_notification") with
          | true => simp [dispatchTurn, h1, h2, h3] at h
          | false =>
            have h' : (dispatchTurn (fun i => ex (i + 1)) phone rest).2 = none := by
              simpa [dispatchTurn, h1, h2, h3] using h
            have hlen := ih (fun i => ex (i + 1)) h'
            simp [dispatchTurn, h1, h2, h3, List.filter_cons, hlen]
        | exn m =>
          have h' : (dispatchTurn (fun i => ex (i + 1)) phone rest).2 = none := by
            simpa [dispatchTurn, h1, h2] using h
          have hlen := ih (fun i => ex (i + 1)) h'
          simp [dispatchTurn, h1, h2, List.filter_cons, hlen]
      · have h1' : registryHas c.name = false := by
          simpa using h1
        have h' : (dispatchTurn (fun i => ex (i + 1)) phone rest).2 = none := by
          simpa [dispatchTurn, h1'] using h
        have hlen := ih (fun i => ex (i + 1)) h'
        simp [dispatchTurn, h1', List.filter_cons, hlen]

/-- C9 witness: an unknown tool is dropped without a result, and a turn with
one failing calendar call produces exactly one result for its one resolvable
call. -/
theorem c9_witness :
    dispatchTurn (fun _ => Outcome.ok PyVal.none) "p" [⟨"unknown_tool", []⟩] =
      dispatchTurn (fun _i => Outcome.ok PyVal.none) "p" [] ∧
    (dispatchTurn (fun _ => Outcome.exn "boom") "p" [⟨"get_today_events", []⟩]).1.length =
      ([(⟨"get_today_events", []⟩ : ToolCall)].filter
          (fun c => registryHas c.name)).length :=
  ⟨c9_amended_skip_and_result_count.1 (fun _ => Outcome.ok PyVal.none) "p"
      ⟨"unknown_tool", []⟩ [] rfl,
    c9_amended_skip_and_result_count.2 (fun _ => Outcome.exn "boom") "p"
      [⟨"get_today_events", []⟩] rfl⟩

/-- C10: send_sms_notification returns a Bool and never raises: `true` when
the Twilio client accepts the message and `false` when it throws; and the
orchestrator terminal branch keys on the tool name and a non-raising call
only, so a dispatch whose outcome is the Bool returned by
send_sms_notification ends the turn with the success string whether that
Bool is true or false. -/
theorem c10_sms_bool_never_raises_terminal_anyway :
    (∀ sid, send_sms_notification (.ok sid) = true) ∧
    (∀ e, send_sms_notification (.error e) = false) ∧
    (∀ (create : Except String String) (phone : String) (rest : List ToolCall),
        dispatchTurn (fun _ => Outcome.ok (PyVal.bool (send_sms_notification create)))
            phone (⟨"send_sms_notification", []⟩ :: rest) =
          ([⟨"send_sms_notification", PyVal.bool (send_sms_notification create)⟩],
            some (successString phone))) :=
  ⟨fun _ => rfl, fun _ => rfl, fun _ _ _ => rfl⟩

/-- C1: the spec requires every produced ToolResult to be fed back to the
model before the next model turn.  The loop body of run_agent never calls
session.send_message: `response` is never reassigned, the collected
tool_responses list is discarded, and the same response is re-dispatched
each iteration.  Evaluated at a response with a single successful calendar
call: a ToolResult is produced by the dispatch pass, yet the run ends by
exhausting all 15 iterations with the failure string instead of feeding the
result back. -/
theorem c1_results_never_fed_back :
    run_agent ⟨[⟨"get_today_events", []⟩], none⟩
        (fun _ _ => Outcome.ok (PyVal.list [])) "p" = some failString ∧
    (dispatchTurn ((fun _ _ => Outcome.ok (PyVal.list [])) 0) "p"
        [⟨"get_today_events", []⟩]).1 =
      [⟨"get_today_events", PyVal.list []⟩] :=
  ⟨rfl, rfl⟩

/-! ## Character-case helper lemmas for the scoring claim -/

/-- Converting a valid scalar value to a character and back is the
identity. -/
theorem char_toNat_ofNat {n : Nat} (h : n.isValidChar) : (Char.ofNat n).toNat = n := by
  rw [Char.ofNat, dif_pos h]
  rfl

/-- Lowercasing never yields an ASCII uppercase letter. -/
theorem char_toLower_not_upper_ascii (c : Char) :
    ¬ (65 ≤ c.toLower.toNat ∧ c.toLower.toNat ≤ 90) := by
  rw [Char.toLower]
  split
  · rename_i h
    rw [char_toNat_ofNat (by exact Or.inl (by omega))]
    omega
  · rename_i h
    omega

/-- Lowercasing is idempotent across an intermediate uppercasing. -/
theorem char_toLower_toUpper_toLower (c : Char) :
    c.toLower.toUpper.toLower = c.toLower := by
  have hnu := char_toLower_not_upper_ascii c
  rw [Char.toUpper]
  split
  · rename_i h
    have hv : (c.toLower.toNat - 32).isValidChar := Or.inl (by omega)
    rw [Char.toLower]
    split
    · rename_i h2
      rw [char_toNat_ofNat hv] at h2 ⊢
      have he : c.toLower.toNat - 32 + 32 = c.toLower.toNat := by omega
      rw [he, Char.ofNat_toNat]
    · rename_i h2
      rw [char_toNat_ofNat hv] at h2
      omega
  · rw [Char.toLower]
    split
    · rename_i h2
      exact absurd h2 hnu
    · rfl

/-- The check the source performs on the already-lowercased description
(uppercase it and look for README) is equivalent to case-insensitive
containment of README, i.e. to finding readme in the lowercased
description. -/
theorem readme_insensitive_iff (d : List Char) :
    "README".data <:+: (d.map Char.toLower).map Char.toUpper ↔
    "readme".data <:+: d.map Char.toLower := by
  constructor
  · intro h
    have h2 := h.map Char.toLower
    have e1 : "README".data.map Char.toLower = "readme".data := by decide
    have e2 : ((d.map Char.toLower).map Char.toUpper).map Char.toLower
        = d.map Char.toLower := by
      simp only [List.map_map]
      exact List.map_congr_left (fun a _ => char_toLower_toUpper_toLower a)
    rw [e1, e2] at h2
    exact h2
  · intro h
    have h2 := h.map Char.toUpper
    have e1 : "readme".data.map Char.toUpper = "README".data := by decide
    rw [e1] at h2
    exact h2

/-- The keyword scoring fold adds 5 for each keyword contained in the
description. -/
theorem foldl_add5_eq (l : List (List Char)) (d : List Char) :
    ∀ s : ℚ, l.foldl (fun s kw => if kw <:+: d then s + 5 else s) s
      = s + 5 * ((l.filter (fun kw => decide (kw <:+: d))).length : ℚ) := by
  induction l with
  | nil => intro s; simp
  | cons k rest ih =>
    intro s
    by_cases h : k <:+: d
    · simp [List.foldl_cons, List.filter_cons, h, ih]
      ring
    · simp [List.foldl_cons, List.filter_cons, h, ih]

/-- Congruence for an if-then-else under an equivalence of conditions. -/
theorem ite_iff_congr {A C : Prop} [Decidable A] [Decidable C] (h : A ↔ C) (x y : ℚ) :
    (if A then x else y) = if C then x else y :=
  if_congr h rfl rfl

/-! ## Claims about the GitHub scoring tool -/

/-- C4: for every repository record, the score computed by
analyze_repository equals the formula stated by the spec: min(stars/100, 50)
plus min(forks/100, 20) plus 5 per hands-on keyword occurring in the
lowercased description plus 5 for the wiki flag plus 5 when the description
contains README case-insensitively. -/
theorem c4_analyze_repository_score (repo : Repo) :
    (analyze_repository repo).score = claimed_score repo := by
  simp only [analyze_repository, claimed_score]
  rw [foldl_add5_eq]
  rw [ite_iff_congr (readme_insensitive_iff (repo.description.getD []))]
  split_ifs <;> ring

/-- The comparator is transitive. -/
theorem score_desc_trans : ∀ a b c : AnalyzedRepo,
    score_desc a b → score_desc b c → score_desc a c := by
  intro a b c h1 h2
  simp only [score_desc, decide_eq_true_eq] at h1 h2 ⊢
  exact le_trans h2 h1

/-- The comparator is total. -/
theorem score_desc_total : ∀ a b : AnalyzedRepo, score_desc a b || score_desc b a := by
  intro a b
  simp only [score_desc, Bool.or_eq_true, decide_eq_true_eq]
  exact le_total b.score a.score

/-- C5: get_top_recommendations returns at most max_results elements,
sorted by score in descending order; its elements are, by identity and with
multiplicity, drawn from the analyzed search results (a permutation of a
sublist of them -- the charitable reading of subsequence compatible with
the resorted order); and ties keep encounter order: for every score value,
the output elements of that score form a prefix of the analyzed results of
that score, in their original order (Python sorted is stable). -/
theorem c5_get_top_recommendations_shape (repos : List Repo) (k : Nat) :
    (get_top_recommendations repos k).length ≤ k ∧
    (get_top_recommendations repos k).Pairwise (fun a b => b.score ≤ a.score) ∧
    (∃ sub, sub <+ repos.map analyze_repository ∧ get_top_recommendations repos k ~ sub) ∧
    (∀ v : ℚ, (get_top_recommendations repos k).filter (fun x => decide (x.score = v)) <+:
        (repos.map analyze_repository).filter (fun x => decide (x.score = v))) := by
  refine ⟨?_, ?_, ?_, ?_⟩
  · simp only [get_top_recommendations, List.length_take]
    omega
  · have hs := List.sorted_mergeSort score_desc_trans score_desc_total
      (repos.map analyze_repository)
    have hp : ((repos.map analyze_repository).mergeSort score_desc).Pairwise
        (fun a b => b.score ≤ a.score) :=
      hs.imp (fun hab => by simpa [score_desc] using hab)
    exact hp.sublist (List.take_prefix _ _).sublist
  · have h1 : get_top_recommendations repos k <+~
        (repos.map analyze_repository).mergeSort score_desc :=
      ((List.take_prefix k _).sublist).subperm
    have h2 := (List.mergeSort_perm (repos.map analyze_repository) score_desc).subperm
    obtain ⟨l, hl1, hl2⟩ := h1.trans h2
    exact ⟨l, hl2, hl1.symm⟩
  · intro v
    have hpair : ((repos.map analyze_repository).filter
        (fun x => decide (x.score = v))).Pairwise (fun a b => score_desc a b = true) := by
      apply List.pairwise_of_forall_mem_list
      intro a ha b hb
      have ha' := List.of_mem_filter ha
      have hb' := List.of_mem_filter hb
      simp only [decide_eq_true_eq] at ha' hb'
      simp [score_desc, ha', hb']
    have hsub : (repos.map analyze_repository).filter (fun x => decide (x.score = v)) <+
        (repos.map analyze_repository).mergeSort score_desc :=
      List.sublist_mergeSort score_desc_trans score_desc_total hpair
        (List.filter_sublist _)
    have hsub2 : (repos.map analyze_repository).filter (fun x => decide (x.score = v)) <+
        ((repos.map analyze_repository).mergeSort score_desc).filter
          (fun x => decide (x.score = v)) := by
      have h2 := hsub.filter (fun x => decide (x.score = v))
      rwa [List.filter_filter,
        show (fun a : AnalyzedRepo => decide (a.score = v) && decide (a.score = v))
            = fun a : AnalyzedRepo => decide (a.score = v)
          from funext (fun a => Bool.and_self _)] at h2
    have hlen : (((repos.map analyze_repository).mergeSort score_desc).filter
          (fun x => decide (x.score = v))).length =
        ((repos.map analyze_repository).filter (fun x => decide (x.score = v))).length :=
      ((List.mergeSort_perm (repos.map analyze_repository) score_desc).filter
        (fun x => decide (x.score = v))).length_eq
    have hfe := (hsub2.eq_of_length hlen.symm).symm
    have hpre : (get_top_recommendations repos k).filter (fun x => decide (x.score = v)) <+:
        (((repos.map analyze_repository).mergeSort score_desc).filter
          (fun x => decide (x.score = v))) :=
      (List.take_prefix k ((repos.map analyze_repository).mergeSort score_desc)).filter _
    rw [hfe] at hpre
    exact hpre

end CapstoneAgent
